import Mathlib

/-!
Verification development for the double-ratchet messaging client
(messenger.py). The cryptographic primitive library is modelled
symbolically: byte strings are a free term algebra over the operations the
library exposes, and randomness is an explicit entropy counter threaded
through the client state. Python exceptions are modelled by returning an
error value together with the (possibly mutated) client state, so that
state changes performed before an exception are observable, exactly as in
the source.
-/

namespace Messenger

/-- Symbolic byte strings: a free term algebra over the primitive
library operations. A value of this type stands for the bytes produced by
the corresponding library call. -/
inductive Data where
  | str : String → Data
  | dpriv : Nat → Data
  | dpub : Nat → Data
  | dh : Data → Data → Data
  | dsalt : Nat → Data
  | hkdf1 : Data → Data → String → Data
  | hkdf2 : Data → Data → String → Data
  | hmacAes : Data → String → Data
  | hmacHmac : Data → String → Data
  | enc : Data → Data → Data → Option String → Data
  | sig : Nat → String → Data
  deriving DecidableEq, Repr

/-- generate_eg from the library: a fresh ElGamal key pair, indexed by the
entropy counter value at the time of the call. Returns (private, public). -/
def generate_eg (n : Nat) : Data × Data := (Data.dpriv n, Data.dpub n)

/-- gen_random_salt from the library: fresh random bytes, indexed by the
entropy counter value at the time of the call. -/
def gen_random_salt (n : Nat) : Data := Data.dsalt n

/-- compute_dh from the library: Diffie-Hellman shared secret. -/
def compute_dh (a b : Data) : Data := Data.dh a b

/-- hkdf from the library: two derived keys from input key material, a
salt and a context string. -/
def hkdf (ikm s : Data) (info : String) : Data × Data :=
  (Data.hkdf1 ikm s info, Data.hkdf2 ikm s info)

/-- hmac_to_aes_key from the library. -/
def hmac_to_aes_key (k : Data) (label : String) : Data := Data.hmacAes k label

/-- hmac_to_hmac_key from the library. -/
def hmac_to_hmac_key (k : Data) (label : String) : Data := Data.hmacHmac k label

/-- encrypt_with_gcm from the library: AES-GCM authenticated encryption of
a plaintext under a key, an IV and optional associated data. -/
def encrypt_with_gcm (key pt iv : Data) (aad : Option String) : Data :=
  Data.enc key pt iv aad

/-- decrypt_with_gcm from the library: succeeds exactly on a ciphertext
produced with the same key, IV and associated data, returning its
plaintext; any mismatch is an authentication failure. -/
def decrypt_with_gcm (key ct iv : Data) (aad : Option String) : Option Data :=
  match ct with
  | Data.enc k p i a => if k = key ∧ i = iv ∧ a = aad then some p else none
  | _ => none

/-- verify_with_ecdsa from the library: a signature verifies against a
public key exactly when it was produced by the matching private key over
the same message. -/
def verify_with_ecdsa (pub : Data) (msg : String) (s : Data) : Bool :=
  match pub, s with
  | Data.dpub n, Data.sig m t => decide (n = m ∧ t = msg)
  | _, _ => false

/-- gov_encryption_data_str, the escrow derivation label constant exported
by the library. Its concrete value is external to the core; it is only
ever used consistently. -/
def gov_encryption_data_str : String := "AES-GENERATION"

/-- Rendering of symbolic bytes as a string, standing for the Python str()
of the underlying value. -/
def dataStr : Data → String
  | Data.str s => "str<" ++ s ++ ">"
  | Data.dpriv n => "priv<" ++ toString n ++ ">"
  | Data.dpub n => "pub<" ++ toString n ++ ">"
  | Data.dh a b => "dh<" ++ dataStr a ++ "," ++ dataStr b ++ ">"
  | Data.dsalt n => "salt<" ++ toString n ++ ">"
  | Data.hkdf1 a b i => "hkdf1<" ++ dataStr a ++ "," ++ dataStr b ++ "," ++ i ++ ">"
  | Data.hkdf2 a b i => "hkdf2<" ++ dataStr a ++ "," ++ dataStr b ++ "," ++ i ++ ">"
  | Data.hmacAes a l => "hmacAes<" ++ dataStr a ++ "," ++ l ++ ">"
  | Data.hmacHmac a l => "hmacHmac<" ++ dataStr a ++ "," ++ l ++ ">"
  | Data.enc k p i a =>
      "enc<" ++ dataStr k ++ "," ++ dataStr p ++ "," ++ dataStr i ++ ","
        ++ (match a with | none => "None" | some s => s) ++ ">"
  | Data.sig n m => "sig<" ++ toString n ++ "," ++ m ++ ">"

/-- A user certificate: the dict with fields username and public_key. -/
structure Cert where
  username : String
  public_key : Data
  deriving DecidableEq, Repr

/-- Python str() of a certificate dict, as passed to verify_with_ecdsa. -/
def certStr (c : Cert) : String :=
  "cert<username: " ++ c.username ++ ", public_key: " ++ dataStr c.public_key ++ ">"

/-- The wire header dict built by send_message, with the government escrow
fields included. -/
structure Header where
  dh_public_key : Data
  prev_chain_length : Int
  message_n : Int
  receiver_iv : Data
  v_gov : Data
  c_gov : Data
  iv_gov : Data
  deriving DecidableEq, Repr

/-- Python str() of the header dict, used as GCM associated data. Field
order follows the insertion order in send_message. -/
def headerStr (h : Header) : String :=
  "header<dh_public_key: " ++ dataStr h.dh_public_key
    ++ ", prev_chain_length: " ++ toString h.prev_chain_length
    ++ ", message_n: " ++ toString h.message_n
    ++ ", receiver_iv: " ++ dataStr h.receiver_iv
    ++ ", v_gov: " ++ dataStr h.v_gov
    ++ ", c_gov: " ++ dataStr h.c_gov
    ++ ", iv_gov: " ++ dataStr h.iv_gov ++ ">"

/-- The exceptions the client can raise. The first four are the explicit
ValueError raises in the source; crash stands for an uncaught library
error (KeyError / TypeError) on a misuse path. -/
inductive Err where
  | noCertificate : Err
  | certTampering : Err
  | replay : Err
  | tampering : Err
  | crash : Err
  deriving DecidableEq, Repr

/-- Per-peer connection state: the dict stored in self.conns. -/
structure Conn where
  my_dh_private_key : Data
  my_dh_public_key : Data
  their_dh_public_key : Option Data
  root_key : Data
  sending_chain_key : Option Data
  receiving_chain_key : Option Data
  message_n : Int
  their_message_n : Int
  prev_chain_length : Int
  need_ratchet : Bool
  deriving DecidableEq, Repr

/-- MessengerClient state. ctr is the entropy counter: each call to
generate_eg or gen_random_salt consumes one position of the random
stream. -/
structure Client where
  ca_public_key : Data
  gov_public_key : Data
  conns : List (String × Conn)
  certs : List (String × Cert)
  my_certificate : Option Cert
  my_keys : Option (Data × Data)
  ctr : Nat
  deriving DecidableEq, Repr

/-- Dictionary lookup on an association list. -/
def getEntry {α : Type} (l : List (String × α)) (k : String) : Option α :=
  match l with
  | [] => none
  | (k', v) :: t => if k' = k then some v else getEntry t k

/-- Dictionary update on an association list: overwrite the entry if
present, append otherwise. -/
def setEntry {α : Type} (l : List (String × α)) (k : String) (v : α) :
    List (String × α) :=
  match l with
  | [] => [(k, v)]
  | (k', v') :: t => if k' = k then (k, v) :: t else (k', v') :: setEntry t k v

/-- MessengerClient constructor. The initial entropy position is a
parameter of the embedding. -/
def mkClient (cert_authority_public_key gov_public_key : Data) (entropy : Nat) :
    Client :=
  { ca_public_key := cert_authority_public_key
    gov_public_key := gov_public_key
    conns := []
    certs := []
    my_certificate := none
    my_keys := none
    ctr := entropy }

/-- generate_certificate: generate an ElGamal key pair, build the
certificate dict, store keys and certificate, return the certificate. -/
def generate_certificate (c : Client) (username : String) : Cert × Client :=
  let keys := generate_eg c.ctr
  let certificate : Cert := { username := username, public_key := keys.2 }
  (certificate,
    { c with my_keys := some keys, my_certificate := some certificate,
             ctr := c.ctr + 1 })

/-- receive_certificate: verify the signature over str(certificate) with
the certificate authority public key; raise on failure, store the
certificate keyed by its username on success. -/
def receive_certificate (c : Client) (certificate : Cert) (signature : Data) :
    Except Err Unit × Client :=
  let valid := verify_with_ecdsa c.ca_public_key (certStr certificate) signature
  if valid then
    (Except.ok (), { c with certs := setEntry c.certs certificate.username certificate })
  else
    (Except.error Err.certTampering, c)

/-- _initialize_sending_session: create a fresh session DH key pair,
compute the shared secret with the recipient certificate public key, set
up the connection dict, and derive the sending chain key as the first
output of hkdf over the shared secret with a fresh salt. A missing
certificate or missing identity keys crashes (KeyError / TypeError)
without touching the state. -/
def init_sending_session (c : Client) (recipient_name : String) :
    Except Err Unit × Client :=
  match getEntry c.certs recipient_name, c.my_keys with
  | some recipient_cert, some keys =>
    let dh_keys := generate_eg c.ctr
    let shared_secret := compute_dh keys.1 recipient_cert.public_key
    let conn : Conn :=
      { my_dh_private_key := dh_keys.1
        my_dh_public_key := dh_keys.2
        their_dh_public_key := none
        root_key := shared_secret
        sending_chain_key := none
        receiving_chain_key := none
        message_n := 0
        their_message_n := -1
        prev_chain_length := 0
        need_ratchet := false }
    let s := gen_random_salt (c.ctr + 1)
    let pair := hkdf shared_secret s "sending_chain_init"
    let conn1 := { conn with sending_chain_key := some pair.1 }
    (Except.ok (), { c with conns := setEntry c.conns recipient_name conn1,
                            ctr := c.ctr + 2 })
  | _, _ => (Except.error Err.crash, c)

/-- _initialize_receiving_session: compute the shared secret from the
identity private key and the sender certificate public key, reuse the
identity key pair as the session DH pair, record the header DH public
key, and derive the receiving chain key as the second output of hkdf with
a fresh salt. -/
def init_receiving_session (c : Client) (sender_name : String) (header : Header) :
    Except Err Unit × Client :=
  match getEntry c.certs sender_name, c.my_keys with
  | some sender_cert, some keys =>
    let shared_secret := compute_dh keys.1 sender_cert.public_key
    let conn : Conn :=
      { my_dh_private_key := keys.1
        my_dh_public_key := keys.2
        their_dh_public_key := some header.dh_public_key
        root_key := shared_secret
        sending_chain_key := none
        receiving_chain_key := none
        message_n := 0
        their_message_n := -1
        prev_chain_length := 0
        need_ratchet := false }
    let s := gen_random_salt c.ctr
    let pair := hkdf shared_secret s "receiving_chain_init"
    let conn1 := { conn with receiving_chain_key := some pair.2 }
    (Except.ok (), { c with conns := setEntry c.conns sender_name conn1,
                            ctr := c.ctr + 1 })
  | _, _ => (Except.error Err.crash, c)

/-- _ratchet_dh_sending_keys: record prev_chain_length, reset message_n,
install a freshly generated DH key pair (these mutations are committed
before the DH computation, as in the source), then compute the new shared
secret with the stored peer ratchet key and re-derive root and sending
chain keys. If the peer ratchet key is still None the DH call crashes
after the first mutations, matching the source exception behaviour. -/
def ratchet_dh_sending_keys (c : Client) (recipient_name : String) :
    Except Err Unit × Client :=
  match getEntry c.conns recipient_name with
  | none => (Except.error Err.crash, c)
  | some conn =>
    let dh_keys := generate_eg c.ctr
    let conn1 := { conn with prev_chain_length := conn.message_n
                             message_n := 0
                             my_dh_private_key := dh_keys.1
                             my_dh_public_key := dh_keys.2 }
    let c1 := { c with conns := setEntry c.conns recipient_name conn1,
                       ctr := c.ctr + 1 }
    match conn1.their_dh_public_key with
    | none => (Except.error Err.crash, c1)
    | some their =>
      let dh_output := compute_dh conn1.my_dh_private_key their
      let s := gen_random_salt c1.ctr
      let pair := hkdf dh_output s "dh_ratchet_sending"
      let conn2 := { conn1 with root_key := pair.1
                                sending_chain_key := some pair.2
                                need_ratchet := false }
      (Except.ok (), { c1 with conns := setEntry c1.conns recipient_name conn2,
                               ctr := c1.ctr + 1 })

/-- _ratchet_dh_receiving_keys: update the stored peer ratchet key from
the header, compute the new shared secret with the local session private
key, and re-derive root and receiving chain keys. -/
def ratchet_dh_receiving_keys (c : Client) (sender_name : String) (header : Header) :
    Except Err Unit × Client :=
  match getEntry c.conns sender_name with
  | none => (Except.error Err.crash, c)
  | some conn =>
    let conn1 := { conn with their_dh_public_key := some header.dh_public_key }
    let dh_output := compute_dh conn1.my_dh_private_key header.dh_public_key
    let s := gen_random_salt c.ctr
    let pair := hkdf dh_output s "dh_ratchet_receiving"
    let conn2 := { conn1 with root_key := pair.1
                              receiving_chain_key := some pair.2 }
    (Except.ok (), { c with conns := setEntry c.conns sender_name conn2,
                            ctr := c.ctr + 1 })

/-- _ratchet_sending_chain: one symmetric ratchet step, returning
(message_key, next_chain_key). -/
def ratchet_sending_chain (current_key : Data) : Data × Data :=
  let message_key := hmac_to_hmac_key current_key "message_key"
  let next_chain_key := hmac_to_hmac_key current_key "next_chain_key"
  (message_key, next_chain_key)

/-- _ratchet_receiving_chain: one symmetric ratchet step, returning
(message_key, next_chain_key). -/
def ratchet_receiving_chain (current_key : Data) : Data × Data :=
  let message_key := hmac_to_hmac_key current_key "message_key"
  let next_chain_key := hmac_to_hmac_key current_key "next_chain_key"
  (message_key, next_chain_key)

/-- send_message: look up the recipient certificate, lazily create the
session, DH-ratchet the sending side if flagged, draw the two IVs,
advance the sending chain, build the header, escrow-encrypt the message
AES key for the government, bump message_n, and GCM-encrypt the plaintext
with str(header) as associated data. -/
def send_message (c : Client) (name : String) (plaintext : String) :
    Except Err (Header × Data) × Client :=
  match getEntry c.certs name with
  | none => (Except.error Err.noCertificate, c)
  | some _recipient_cert =>
    let step1 : Except Err Unit × Client :=
      match getEntry c.conns name with
      | none => init_sending_session c name
      | some _ => (Except.ok (), c)
    match step1 with
    | (Except.error e, c1) => (Except.error e, c1)
    | (Except.ok _, c1) =>
      match getEntry c1.conns name with
      | none => (Except.error Err.crash, c1)
      | some conn1 =>
        let step2 : Except Err Unit × Client :=
          if conn1.need_ratchet then ratchet_dh_sending_keys c1 name
          else (Except.ok (), c1)
        match step2 with
        | (Except.error e, c2) => (Except.error e, c2)
        | (Except.ok _, c2) =>
          match getEntry c2.conns name with
          | none => (Except.error Err.crash, c2)
          | some conn2 =>
            let receiver_iv := gen_random_salt c2.ctr
            let gov_iv := gen_random_salt (c2.ctr + 1)
            let c3 := { c2 with ctr := c2.ctr + 2 }
            match conn2.sending_chain_key with
            | none => (Except.error Err.crash, c3)
            | some sck =>
              let pair := ratchet_sending_chain sck
              let sending_key := pair.1
              let conn3 := { conn2 with sending_chain_key := some pair.2 }
              let c4 := { c3 with conns := setEntry c3.conns name conn3 }
              let aes_sending_key := hmac_to_aes_key sending_key "encrypt"
              match c4.my_keys with
              | none => (Except.error Err.crash, c4)
              | some keys =>
                let gov_shared := compute_dh keys.1 c4.gov_public_key
                let gov_key := hmac_to_aes_key gov_shared gov_encryption_data_str
                let gov_ciphertext := encrypt_with_gcm gov_key aes_sending_key gov_iv none
                let header : Header :=
                  { dh_public_key := conn3.my_dh_public_key
                    prev_chain_length := conn3.prev_chain_length
                    message_n := conn3.message_n
                    receiver_iv := receiver_iv
                    v_gov := keys.2
                    c_gov := gov_ciphertext
                    iv_gov := gov_iv }
                let conn4 := { conn3 with message_n := conn3.message_n + 1 }
                let c5 := { c4 with conns := setEntry c4.conns name conn4 }
                let ciphertext :=
                  encrypt_with_gcm aes_sending_key (Data.str plaintext) receiver_iv
                    (some (headerStr header))
                (Except.ok (header, ciphertext), c5)

/-- receive_message: look up the sender certificate, lazily create the
session from the header, DH-ratchet the receiving side if the header DH
public key differs from the stored one, reject replayed indices, advance
the receiving chain (committed before decryption, as in the source),
GCM-decrypt with str(header) as associated data, and only on success bump
their_message_n and set need_ratchet. -/
def receive_message (c : Client) (name : String) (message : Header × Data) :
    Except Err Data × Client :=
  let header := message.1
  let ciphertext := message.2
  match getEntry c.certs name with
  | none => (Except.error Err.noCertificate, c)
  | some _sender_cert =>
    let step1 : Except Err Unit × Client :=
      match getEntry c.conns name with
      | none => init_receiving_session c name header
      | some _ => (Except.ok (), c)
    match step1 with
    | (Except.error e, c1) => (Except.error e, c1)
    | (Except.ok _, c1) =>
      match getEntry c1.conns name with
      | none => (Except.error Err.crash, c1)
      | some conn1 =>
        let step2 : Except Err Unit × Client :=
          if some header.dh_public_key ≠ conn1.their_dh_public_key then
            ratchet_dh_receiving_keys c1 name header
          else (Except.ok (), c1)
        match step2 with
        | (Except.error e, c2) => (Except.error e, c2)
        | (Except.ok _, c2) =>
          match getEntry c2.conns name with
          | none => (Except.error Err.crash, c2)
          | some conn2 =>
            if header.message_n < conn2.their_message_n then
              (Except.error Err.replay, c2)
            else if header.message_n = conn2.their_message_n then
              match conn2.receiving_chain_key with
              | none => (Except.error Err.crash, c2)
              | some rck =>
                let pair := ratchet_receiving_chain rck
                let receiving_key := pair.1
                let conn3 := { conn2 with receiving_chain_key := some pair.2 }
                let c3 := { c2 with conns := setEntry c2.conns name conn3 }
                let aes_receiving_key := hmac_to_aes_key receiving_key "decrypt"
                match decrypt_with_gcm aes_receiving_key ciphertext header.receiver_iv
                    (some (headerStr header)) with
                | some plaintext =>
                  let conn4 := { conn3 with their_message_n := header.message_n + 1
                                            need_ratchet := true }
                  (Except.ok plaintext, { c3 with conns := setEntry c3.conns name conn4 })
                | none => (Except.error Err.tampering, c3)
            else
              (Except.error Err.tampering, c2)

/-- Modelled from the spec wording of section 4.2: the single
hash_ratchet_step both chain helpers are meant to implement, returning
(message_key, next_chain_key) derived by HMAC with the two labels. -/
def hash_ratchet_step (chain_key : Data) : Data × Data :=
  (hmac_to_hmac_key chain_key "message_key",
   hmac_to_hmac_key chain_key "next_chain_key")

/-! Concrete scenario one: two honest clients exchange certificates signed
by the certificate authority (identity seed 100), then alice sends a first
message to bob. -/

/-- Scenario one: the certificate authority public key. -/
def caPub : Data := Data.dpub 100

/-- Scenario one: the government public key. -/
def govPub : Data := Data.dpub 200

/-- Scenario one: alice generates her certificate. -/
def aliceGen : Cert × Client := generate_certificate (mkClient caPub govPub 0) "alice"

/-- Scenario one: bob generates his certificate on a distinct random
stream. -/
def bobGen : Cert × Client := generate_certificate (mkClient caPub govPub 50) "bob"

/-- Scenario one: the certificate-authority signature on bob's
certificate. -/
def sigOnBobCert : Data := Data.sig 100 (certStr bobGen.1)

/-- Scenario one: the certificate-authority signature on alice's
certificate. -/
def sigOnAliceCert : Data := Data.sig 100 (certStr aliceGen.1)

/-- Scenario one: alice after verifying and storing bob's certificate. -/
def alice2 : Client := (receive_certificate aliceGen.2 bobGen.1 sigOnBobCert).2

/-- Scenario one: bob after verifying and storing alice's certificate. -/
def bob2 : Client := (receive_certificate bobGen.2 aliceGen.1 sigOnAliceCert).2

/-- Scenario one: the first message alice sends to bob. -/
def msg1 : Header × Data :=
  match (send_message alice2 "bob" "hello").1 with
  | Except.ok m => m
  | Except.error _ =>
      (⟨Data.str "", 0, 0, Data.str "", Data.str "", Data.str "", Data.str ""⟩,
        Data.str "")

/-! Concrete scenario two: a client with an established sending session of
length two is handed a crafted incoming message whose header index is -1,
the sentinel value the session initializers leave in their_message_n, so
the decode path accepts it. -/

/-- Scenario two: the peer certificate on file. -/
def daveCert : Cert := { username := "dave", public_key := Data.dpub 7 }

/-- Scenario two: the initial client, identity key pair seeded at 3,
entropy position 10. -/
def s2c0 : Client :=
  { ca_public_key := Data.dpub 100, gov_public_key := Data.dpub 200,
    conns := [], certs := [("dave", daveCert)],
    my_certificate := none, my_keys := some (Data.dpriv 3, Data.dpub 3), ctr := 10 }

/-- Scenario two: after the first send to dave. -/
def s2c1 : Client := (send_message s2c0 "dave" "a").2

/-- Scenario two: after the second send to dave, so message_n is 2. -/
def s2c2 : Client := (send_message s2c1 "dave" "b").2

/-- Scenario two: a crafted header carrying message index -1. -/
def hdrX : Header :=
  { dh_public_key := Data.dpub 999, prev_chain_length := 0, message_n := -1,
    receiver_iv := Data.dsalt 0, v_gov := Data.dpub 0,
    c_gov := Data.str "x", iv_gov := Data.str "x" }

/-- Scenario two: the AES key the client derives for the crafted header,
reproduced by the message forger. -/
def aesX : Data :=
  hmac_to_aes_key
    (hmac_to_hmac_key
      (Data.hkdf2 (Data.dh (Data.dpriv 10) (Data.dpub 999)) (Data.dsalt 16)
        "dh_ratchet_receiving")
      "message_key")
    "decrypt"

/-- Scenario two: a ciphertext the client accepts for the crafted
header. -/
def ctX : Data := Data.enc aesX (Data.str "hi") (Data.dsalt 0) (some (headerStr hdrX))

/-- Scenario two: the successful crafted receive; this sets need_ratchet
and leaves message_n at 2. -/
def s2recv : Except Err Data × Client := receive_message s2c2 "dave" (hdrX, ctX)

/-- Scenario two: the send after the successful receive; the DH ratchet
resets message_n. -/
def s2send3 : Except Err (Header × Data) × Client := send_message s2recv.2 "dave" "c"

/-- A failing crafted header for the mutation counterexample: index 5 is
neither below nor equal to the expected counter. -/
def hdrY : Header :=
  { dh_public_key := Data.dpub 888, prev_chain_length := 0, message_n := 5,
    receiver_iv := Data.dsalt 0, v_gov := Data.dpub 0,
    c_gov := Data.str "x", iv_gov := Data.str "x" }

/-- A failing receive on scenario two: rejected as tampering, yet the DH
ratchet ran first and mutated the session. -/
def s2fail : Except Err Data × Client := receive_message s2c2 "dave" (hdrY, Data.str "junk")

/-- A crafted header carrying message index -2, strictly below the
sentinel expected counter -1, for the replay witness. -/
def hdrZ : Header :=
  { dh_public_key := Data.dpub 888, prev_chain_length := 0, message_n := -2,
    receiver_iv := Data.dsalt 0, v_gov := Data.dpub 0,
    c_gov := Data.str "x", iv_gov := Data.str "x" }

/-- The session entry of scenario two after the two sends. -/
def s2conn2 : Conn :=
  { my_dh_private_key := Data.dpriv 10
    my_dh_public_key := Data.dpub 10
    their_dh_public_key := none
    root_key := Data.dh (Data.dpriv 3) (Data.dpub 7)
    sending_chain_key := some (Data.hmacHmac (Data.hmacHmac
      (Data.hkdf1 (Data.dh (Data.dpriv 3) (Data.dpub 7)) (Data.dsalt 11)
        "sending_chain_init") "next_chain_key") "next_chain_key")
    receiving_chain_key := none
    message_n := 2
    their_message_n := -1
    prev_chain_length := 0
    need_ratchet := false }

/-- The session entry of scenario two after the crafted receive. -/
def s2conn3 : Conn :=
  { my_dh_private_key := Data.dpriv 10
    my_dh_public_key := Data.dpub 10
    their_dh_public_key := some (Data.dpub 999)
    root_key := Data.hkdf1 (Data.dh (Data.dpriv 10) (Data.dpub 999)) (Data.dsalt 16)
      "dh_ratchet_receiving"
    sending_chain_key := some (Data.hmacHmac (Data.hmacHmac
      (Data.hkdf1 (Data.dh (Data.dpriv 3) (Data.dpub 7)) (Data.dsalt 11)
        "sending_chain_init") "next_chain_key") "next_chain_key")
    receiving_chain_key := some (Data.hmacHmac
      (Data.hkdf2 (Data.dh (Data.dpriv 10) (Data.dpub 999)) (Data.dsalt 16)
        "dh_ratchet_receiving") "next_chain_key")
    message_n := 2
    their_message_n := 0
    prev_chain_length := 0
    need_ratchet := true }

/-- The session entry of scenario two after the failing receive of hdrY:
the DH ratchet ran and mutated the peer key, root key and receiving chain
key before the call failed. -/
def s2connY : Conn :=
  { my_dh_private_key := Data.dpriv 10
    my_dh_public_key := Data.dpub 10
    their_dh_public_key := some (Data.dpub 888)
    root_key := Data.hkdf1 (Data.dh (Data.dpriv 10) (Data.dpub 888)) (Data.dsalt 16)
      "dh_ratchet_receiving"
    sending_chain_key := some (Data.hmacHmac (Data.hmacHmac
      (Data.hkdf1 (Data.dh (Data.dpriv 3) (Data.dpub 7)) (Data.dsalt 11)
        "sending_chain_init") "next_chain_key") "next_chain_key")
    receiving_chain_key := some (Data.hkdf2
      (Data.dh (Data.dpriv 10) (Data.dpub 888)) (Data.dsalt 16)
      "dh_ratchet_receiving")
    message_n := 2
    their_message_n := -1
    prev_chain_length := 0
    need_ratchet := false }

/-- Scenario two: the message produced by the ratcheting send after the
crafted receive. -/
def msg3 : Header × Data :=
  match s2send3.1 with
  | Except.ok m => m
  | Except.error _ =>
      (⟨Data.str "", 0, 0, Data.str "", Data.str "", Data.str "", Data.str ""⟩,
        Data.str "")

theorem getEntry_setEntry_self {α : Type} (l : List (String × α)) (k : String) (v : α) :
    getEntry (setEntry l k v) k = some v := by
  induction l with
  | nil => simp [setEntry, getEntry]
  | cons hd tl ih =>
    obtain ⟨k', v'⟩ := hd
    by_cases h : k' = k
    · simp [setEntry, getEntry, h]
    · simp [setEntry, getEntry, h, ih]

theorem getEntry_setEntry_ne {α : Type} (l : List (String × α)) (k u : String) (v : α)
    (h : u ≠ k) : getEntry (setEntry l k v) u = getEntry l u := by
  induction l with
  | nil => simp [setEntry, getEntry, Ne.symm h]
  | cons hd tl ih =>
    obtain ⟨k', v'⟩ := hd
    by_cases h' : k' = k
    · subst h'
      simp [setEntry, getEntry, Ne.symm h]
    · simp [setEntry, getEntry, h', ih]

/-- C10: for every chain key, the sending-chain ratchet and the
receiving-chain ratchet compute the same pure function, namely the
hash_ratchet_step of the spec: both return the pair of the HMAC-derived
key with label message_key and the HMAC-derived key with label
next_chain_key. -/
theorem chain_ratchets_are_one_step (k : Data) :
    ratchet_sending_chain k = ratchet_receiving_chain k ∧
    ratchet_sending_chain k = hash_ratchet_step k ∧
    ratchet_receiving_chain k = hash_ratchet_step k ∧
    ratchet_sending_chain k =
      (hmac_to_hmac_key k "message_key", hmac_to_hmac_key k "next_chain_key") :=
  ⟨rfl, rfl, rfl, rfl⟩

/-- C5: receive_certificate raises exactly when signature verification of
the certificate encoding against the certificate-authority public key
returns false; on success it stores the certificate under its username,
overwriting any previous entry and leaving other entries and all other
client fields unchanged; on failure the whole client state is
unchanged. -/
theorem receive_certificate_spec (c : Client) (cert : Cert) (s : Data) :
    ((receive_certificate c cert s).1 = Except.error Err.certTampering ↔
       verify_with_ecdsa c.ca_public_key (certStr cert) s = false) ∧
    (verify_with_ecdsa c.ca_public_key (certStr cert) s = true →
       (receive_certificate c cert s).1 = Except.ok () ∧
       getEntry (receive_certificate c cert s).2.certs cert.username = some cert ∧
       (∀ u, u ≠ cert.username →
          getEntry (receive_certificate c cert s).2.certs u = getEntry c.certs u) ∧
       (receive_certificate c cert s).2.conns = c.conns ∧
       (receive_certificate c cert s).2.my_keys = c.my_keys ∧
       (receive_certificate c cert s).2.ca_public_key = c.ca_public_key ∧
       (receive_certificate c cert s).2.gov_public_key = c.gov_public_key) ∧
    (verify_with_ecdsa c.ca_public_key (certStr cert) s = false →
       (receive_certificate c cert s).2 = c) := by
  by_cases hv : verify_with_ecdsa c.ca_public_key (certStr cert) s = true
  · refine ⟨?_, ?_, ?_⟩
    · simp [receive_certificate, hv]
    · intro _
      refine ⟨?_, ?_, ?_, ?_, ?_, ?_, ?_⟩ <;>
        simp [receive_certificate, hv, getEntry_setEntry_self]
      intro u hu
      simp [receive_certificate, hv, getEntry_setEntry_ne c.certs cert.username u cert hu]
    · intro hfalse
      rw [hv] at hfalse
      exact absurd hfalse (by simp)
  · have hv' : verify_with_ecdsa c.ca_public_key (certStr cert) s = false :=
      Bool.not_eq_true _ ▸ (by simpa using hv)
    refine ⟨?_, ?_, ?_⟩
    · simp [receive_certificate, hv']
    · intro htrue
      rw [hv'] at htrue
      exact absurd htrue (by simp)
    · intro _
      simp [receive_certificate, hv']

/-- C8: for a session whose peer ratchet key is known, the DH-ratchet
sending step succeeds and sets prev_chain_length to the old message_n,
resets message_n to 0, installs a freshly generated key pair, derives
root_key and sending_chain_key as the two outputs of HKDF over the new
shared secret with a fresh salt and info dh_ratchet_sending, clears
need_ratchet, and leaves every other session field unchanged. -/
theorem dh_ratchet_sending_spec (c : Client) (name : String) (conn : Conn) (t : Data)
    (hconn : getEntry c.conns name = some conn)
    (htheir : conn.their_dh_public_key = some t) :
    (ratchet_dh_sending_keys c name).1 = Except.ok () ∧
    ∃ conn', getEntry (ratchet_dh_sending_keys c name).2.conns name = some conn' ∧
      conn'.prev_chain_length = conn.message_n ∧
      conn'.message_n = 0 ∧
      conn'.my_dh_private_key = (generate_eg c.ctr).1 ∧
      conn'.my_dh_public_key = (generate_eg c.ctr).2 ∧
      conn'.root_key =
        (hkdf (compute_dh (generate_eg c.ctr).1 t) (gen_random_salt (c.ctr + 1))
          "dh_ratchet_sending").1 ∧
      conn'.sending_chain_key =
        some (hkdf (compute_dh (generate_eg c.ctr).1 t) (gen_random_salt (c.ctr + 1))
          "dh_ratchet_sending").2 ∧
      conn'.need_ratchet = false ∧
      conn'.their_dh_public_key = conn.their_dh_public_key ∧
      conn'.receiving_chain_key = conn.receiving_chain_key ∧
      conn'.their_message_n = conn.their_message_n := by
  unfold ratchet_dh_sending_keys
  rw [hconn]
  simp only [htheir]
  refine ⟨?_, _, getEntry_setEntry_self _ _ _, ?_⟩ <;> simp [htheir]

/-- C9 amended: receiving-side session initialization computes
shared = DH(my_identity_private, peer_public), sets root_key = shared,
message_n = 0, their_message_n = -1, need_ratchet = false, derives
receiving_chain_key as the second output of HKDF(shared, fresh_salt,
receiving_chain_init) and records their_dh_public_key from the header
immediately; however, instead of generating a fresh local ratchet key
pair it reuses the identity key pair as the session ratchet key pair. -/
theorem init_receiving_spec (c : Client) (name : String) (header : Header)
    (cert : Cert) (kpriv kpub : Data)
    (hcert : getEntry c.certs name = some cert)
    (hkeys : c.my_keys = some (kpriv, kpub)) :
    (init_receiving_session c name header).1 = Except.ok () ∧
    ∃ conn, getEntry (init_receiving_session c name header).2.conns name = some conn ∧
      conn.my_dh_private_key = kpriv ∧
      conn.my_dh_public_key = kpub ∧
      conn.their_dh_public_key = some header.dh_public_key ∧
      conn.root_key = compute_dh kpriv cert.public_key ∧
      conn.sending_chain_key = none ∧
      conn.receiving_chain_key =
        some (hkdf (compute_dh kpriv cert.public_key) (gen_random_salt c.ctr)
          "receiving_chain_init").2 ∧
      conn.message_n = 0 ∧
      conn.their_message_n = -1 ∧
      conn.need_ratchet = false := by
  unfold init_receiving_session
  rw [hcert, hkeys]
  exact ⟨rfl, _, getEntry_setEntry_self _ _ _, rfl, rfl, rfl, rfl, rfl, rfl, rfl,
    rfl, rfl⟩

/-- C4: on an existing session with the peer certificate on file,
receive_message fails with the replay error exactly when the header
message index is below the expected counter their_message_n (which any
DH-ratchet step performed by the call leaves unchanged), and fails with
the tampering error whenever the header index is not below but different
from the expected counter; in both failure cases no plaintext is
returned. -/
theorem receive_replay_tamper_spec (c : Client) (name : String) (header : Header)
    (ct : Data) (cert : Cert) (conn : Conn)
    (hcert : getEntry c.certs name = some cert)
    (hconn : getEntry c.conns name = some conn) :
    ((receive_message c name (header, ct)).1 = Except.error Err.replay ↔
       header.message_n < conn.their_message_n) ∧
    (¬ header.message_n < conn.their_message_n →
       header.message_n ≠ conn.their_message_n →
       (receive_message c name (header, ct)).1 = Except.error Err.tampering) := by
  unfold receive_message
  simp only [hcert, hconn]
  by_cases hdh : some header.dh_public_key ≠ conn.their_dh_public_key
  · simp only [if_pos hdh]
    unfold ratchet_dh_receiving_keys
    rw [hconn]
    simp only [getEntry_setEntry_self]
    by_cases hlt : header.message_n < conn.their_message_n
    · simp [hlt]
    · simp only [if_neg hlt]
      by_cases heq : header.message_n = conn.their_message_n
      · simp only [if_pos heq]
        rcases hdec : decrypt_with_gcm
            (hmac_to_aes_key
              (ratchet_receiving_chain
                (hkdf (compute_dh conn.my_dh_private_key header.dh_public_key)
                  (gen_random_salt c.ctr) "dh_ratchet_receiving").2).1 "decrypt")
            ct header.receiver_iv (some (headerStr header)) with _ | pt <;>
          simp [hdec, hlt, heq]
      · simp [if_neg heq, hlt]
  · simp only [if_neg hdh, hconn]
    by_cases hlt : header.message_n < conn.their_message_n
    · simp [hlt]
    · simp only [if_neg hlt]
      by_cases heq : header.message_n = conn.their_message_n
      · simp only [if_pos heq]
        rcases hrck : conn.receiving_chain_key with _ | rck
        · simp [hrck, hlt, heq]
        · simp only [hrck]
          rcases hdec : decrypt_with_gcm
              (hmac_to_aes_key (ratchet_receiving_chain rck).1 "decrypt")
              ct header.receiver_iv (some (headerStr header)) with _ | pt <;>
            simp [hdec, hlt, heq]
      · simp [if_neg heq, hlt]

/-- C2 amended: a receive_message call that fails on an existing session
leaves their_message_n, need_ratchet, message_n, sending_chain_key,
prev_chain_length and the local DH key pair unchanged (these are committed
only after a decode fully succeeds); however root_key,
their_dh_public_key and receiving_chain_key are not protected, because
the DH ratchet runs before the replay and order checks and the receiving
chain key is advanced before decryption. -/
theorem receive_failure_preserves_commit_fields (c : Client) (name : String)
    (m : Header × Data) (e : Err) (conn conn' : Conn)
    (hconn : getEntry c.conns name = some conn)
    (hfail : (receive_message c name m).1 = Except.error e)
    (hconn' : getEntry (receive_message c name m).2.conns name = some conn') :
    conn'.their_message_n = conn.their_message_n ∧
    conn'.need_ratchet = conn.need_ratchet ∧
    conn'.message_n = conn.message_n ∧
    conn'.sending_chain_key = conn.sending_chain_key ∧
    conn'.prev_chain_length = conn.prev_chain_length ∧
    conn'.my_dh_private_key = conn.my_dh_private_key ∧
    conn'.my_dh_public_key = conn.my_dh_public_key := by
  unfold receive_message at hfail hconn'
  rcases hcertv : getEntry c.certs name with _ | cert
  · simp only [hcertv] at hfail hconn'
    rw [hconn] at hconn'
    obtain rfl : conn = conn' := Option.some.inj hconn'
    exact ⟨rfl, rfl, rfl, rfl, rfl, rfl, rfl⟩
  · simp only [hcertv, hconn] at hfail hconn'
    by_cases hdh : some m.1.dh_public_key ≠ conn.their_dh_public_key
    · simp only [if_pos hdh] at hfail hconn'
      unfold ratchet_dh_receiving_keys at hfail hconn'
      simp only [hconn, getEntry_setEntry_self] at hfail hconn'
      by_cases hlt : m.1.message_n < conn.their_message_n
      · simp only [if_pos hlt, getEntry_setEntry_self] at hconn'
        obtain rfl := Option.some.inj hconn'
        exact ⟨rfl, rfl, rfl, rfl, rfl, rfl, rfl⟩
      · simp only [if_neg hlt] at hfail hconn'
        by_cases heq : m.1.message_n = conn.their_message_n
        · simp only [if_pos heq] at hfail hconn'
          rcases hdec : decrypt_with_gcm
              (hmac_to_aes_key
                (ratchet_receiving_chain
                  (hkdf (compute_dh conn.my_dh_private_key m.1.dh_public_key)
                    (gen_random_salt c.ctr) "dh_ratchet_receiving").2).1 "decrypt")
              m.2 m.1.receiver_iv (some (headerStr m.1)) with _ | pt
          · simp only [hdec, getEntry_setEntry_self] at hfail hconn'
            obtain rfl := Option.some.inj hconn'
            exact ⟨rfl, rfl, rfl, rfl, rfl, rfl, rfl⟩
          · simp only [hdec] at hfail
            exact absurd hfail (by simp)
        · simp only [if_neg heq, getEntry_setEntry_self] at hconn'
          obtain rfl := Option.some.inj hconn'
          exact ⟨rfl, rfl, rfl, rfl, rfl, rfl, rfl⟩
    · simp only [if_neg hdh, hconn] at hfail hconn'
      by_cases hlt : m.1.message_n < conn.their_message_n
      · simp only [if_pos hlt, hconn] at hconn'
        obtain rfl := Option.some.inj hconn'
        exact ⟨rfl, rfl, rfl, rfl, rfl, rfl, rfl⟩
      · simp only [if_neg hlt] at hfail hconn'
        by_cases heq : m.1.message_n = conn.their_message_n
        · simp only [if_pos heq] at hfail hconn'
          rcases hrck : conn.receiving_chain_key with _ | rck
          · simp only [hrck, hconn] at hconn'
            obtain rfl := Option.some.inj hconn'
            exact ⟨rfl, rfl, rfl, rfl, rfl, rfl, rfl⟩
          · simp only [hrck] at hfail hconn'
            rcases hdec : decrypt_with_gcm
                (hmac_to_aes_key (ratchet_receiving_chain rck).1 "decrypt")
                m.2 m.1.receiver_iv (some (headerStr m.1)) with _ | pt
            · simp only [hdec, getEntry_setEntry_self] at hfail hconn'
              obtain rfl := Option.some.inj hconn'
              exact ⟨rfl, rfl, rfl, rfl, rfl, rfl, rfl⟩
            · simp only [hdec] at hfail
              exact absurd hfail (by simp)
        · simp only [if_neg heq, hconn] at hconn'
          obtain rfl := Option.some.inj hconn'
          exact ⟨rfl, rfl, rfl, rfl, rfl, rfl, rfl⟩

/-- C3 amended: on an existing session, their_message_n never decreases
under either operation: receive_message leaves message_n unchanged and
never lowers their_message_n, and send_message leaves their_message_n
unchanged and never lowers message_n provided the call does not perform a
DH ratchet (need_ratchet false); a ratcheting send resets message_n to 0
and may therefore lower it. -/
theorem counters_monotone_amended (c : Client) (name : String) (m : Header × Data)
    (p : String) (conn : Conn)
    (hconn : getEntry c.conns name = some conn) :
    (∀ conn', getEntry (receive_message c name m).2.conns name = some conn' →
       conn.their_message_n ≤ conn'.their_message_n ∧
       conn'.message_n = conn.message_n) ∧
    (∀ conn', getEntry (send_message c name p).2.conns name = some conn' →
       conn'.their_message_n = conn.their_message_n ∧
       (conn.need_ratchet = false → conn.message_n ≤ conn'.message_n)) := by
  constructor
  · intro conn' hconn'
    unfold receive_message at hconn'
    rcases hcertv : getEntry c.certs name with _ | cert
    · simp only [hcertv] at hconn'
      rw [hconn] at hconn'
      obtain rfl := Option.some.inj hconn'
      exact ⟨le_refl _, rfl⟩
    · simp only [hcertv, hconn] at hconn'
      by_cases hdh : some m.1.dh_public_key ≠ conn.their_dh_public_key
      · simp only [if_pos hdh] at hconn'
        unfold ratchet_dh_receiving_keys at hconn'
        simp only [hconn, getEntry_setEntry_self] at hconn'
        by_cases hlt : m.1.message_n < conn.their_message_n
        · simp only [if_pos hlt, getEntry_setEntry_self] at hconn'
          obtain rfl := Option.some.inj hconn'
          exact ⟨le_refl _, rfl⟩
        · simp only [if_neg hlt] at hconn'
          by_cases heq : m.1.message_n = conn.their_message_n
          · simp only [if_pos heq] at hconn'
            rcases hdec : decrypt_with_gcm
                (hmac_to_aes_key
                  (ratchet_receiving_chain
                    (hkdf (compute_dh conn.my_dh_private_key m.1.dh_public_key)
                      (gen_random_salt c.ctr) "dh_ratchet_receiving").2).1 "decrypt")
                m.2 m.1.receiver_iv (some (headerStr m.1)) with _ | pt <;>
              simp only [hdec, getEntry_setEntry_self] at hconn'
            · obtain rfl := Option.some.inj hconn'
              exact ⟨le_refl _, rfl⟩
            · obtain rfl := Option.some.inj hconn'
              exact ⟨by show conn.their_message_n ≤ m.1.message_n + 1; omega, rfl⟩
          · simp only [if_neg heq, getEntry_setEntry_self] at hconn'
            obtain rfl := Option.some.inj hconn'
            exact ⟨le_refl _, rfl⟩
      · simp only [if_neg hdh, hconn] at hconn'
        by_cases hlt : m.1.message_n < conn.their_message_n
        · simp only [if_pos hlt, hconn] at hconn'
          obtain rfl := Option.some.inj hconn'
          exact ⟨le_refl _, rfl⟩
        · simp only [if_neg hlt] at hconn'
          by_cases heq : m.1.message_n = conn.their_message_n
          · simp only [if_pos heq] at hconn'
            rcases hrck : conn.receiving_chain_key with _ | rck
            · simp only [hrck, hconn] at hconn'
              obtain rfl := Option.some.inj hconn'
              exact ⟨le_refl _, rfl⟩
            · simp only [hrck] at hconn'
              rcases hdec : decrypt_with_gcm
                  (hmac_to_aes_key (ratchet_receiving_chain rck).1 "decrypt")
                  m.2 m.1.receiver_iv (some (headerStr m.1)) with _ | pt <;>
                simp only [hdec, getEntry_setEntry_self] at hconn'
              · obtain rfl := Option.some.inj hconn'
                exact ⟨le_refl _, rfl⟩
              · obtain rfl := Option.some.inj hconn'
                exact ⟨by show conn.their_message_n ≤ m.1.message_n + 1; omega, rfl⟩
          · simp only [if_neg heq, hconn] at hconn'
            obtain rfl := Option.some.inj hconn'
            exact ⟨le_refl _, rfl⟩
  · intro conn' hconn'
    unfold send_message at hconn'
    rcases hcertv : getEntry c.certs name with _ | cert
    · simp only [hcertv] at hconn'
      rw [hconn] at hconn'
      obtain rfl := Option.some.inj hconn'
      exact ⟨rfl, fun _ => le_refl _⟩
    · simp only [hcertv, hconn] at hconn'
      by_cases hneed : conn.need_ratchet
      · simp only [hneed, if_pos] at hconn'
        unfold ratchet_dh_sending_keys at hconn'
        simp only [hconn, getEntry_setEntry_self] at hconn'
        rcases htheir : conn.their_dh_public_key with _ | t
        · simp only [htheir, getEntry_setEntry_self] at hconn'
          obtain rfl := Option.some.inj hconn'
          exact ⟨rfl, fun hf => absurd hneed (by rw [hf]; exact Bool.false_ne_true)⟩
        · simp only [htheir, getEntry_setEntry_self] at hconn'
          rcases hkv : c.my_keys with _ | keys <;>
            simp only [hkv, getEntry_setEntry_self] at hconn'
          · obtain rfl := Option.some.inj hconn'
            exact ⟨rfl, fun hf => absurd hneed (by rw [hf]; exact Bool.false_ne_true)⟩
          · obtain rfl := Option.some.inj hconn'
            exact ⟨rfl, fun hf => absurd hneed (by rw [hf]; exact Bool.false_ne_true)⟩
      · simp only [if_neg hneed, hconn] at hconn'
        rcases hsck : conn.sending_chain_key with _ | sck
        · simp only [hsck, hconn] at hconn'
          obtain rfl := Option.some.inj hconn'
          exact ⟨rfl, fun _ => le_refl _⟩
        · simp only [hsck] at hconn'
          rcases hkv : c.my_keys with _ | keys <;>
            simp only [hkv, getEntry_setEntry_self] at hconn'
          · obtain rfl := Option.some.inj hconn'
            exact ⟨rfl, fun _ => le_refl _⟩
          · obtain rfl := Option.some.inj hconn'
            exact ⟨rfl, fun _ => by show conn.message_n ≤ conn.message_n + 1; omega⟩

/-- C7: every message produced by a successful send carries in c_gov the
AEAD encryption, with no associated data, under the key derived with the
escrow label from the static shared secret of the sender identity private
key and the government public key and under the escrow IV, of exactly the
AES key that encrypted the plaintext; decrypting c_gov with that escrow
key recovers that AES key. -/
theorem escrow_recovers_message_key (c : Client) (name p : String) (hdr : Header)
    (ct : Data) (kpriv kpub : Data)
    (hkeys : c.my_keys = some (kpriv, kpub))
    (hsend : (send_message c name p).1 = Except.ok (hdr, ct)) :
    ∃ k, ct = encrypt_with_gcm k (Data.str p) hdr.receiver_iv (some (headerStr hdr)) ∧
      hdr.c_gov = encrypt_with_gcm
        (hmac_to_aes_key (compute_dh kpriv c.gov_public_key) gov_encryption_data_str)
        k hdr.iv_gov none ∧
      decrypt_with_gcm
        (hmac_to_aes_key (compute_dh kpriv c.gov_public_key) gov_encryption_data_str)
        hdr.c_gov hdr.iv_gov none = some k := by
  unfold send_message at hsend
  rcases hcertv : getEntry c.certs name with _ | cert
  · rw [hcertv] at hsend
    exact absurd hsend (by simp)
  · simp only [hcertv] at hsend
    rcases hconnv : getEntry c.conns name with _ | conn
    · simp only [hconnv] at hsend
      unfold init_sending_session at hsend
      simp only [hcertv, hkeys, getEntry_setEntry_self, reduceIte] at hsend
      rw [if_neg Bool.false_ne_true] at hsend
      simp only [getEntry_setEntry_self] at hsend
      obtain ⟨hh, hc⟩ := Prod.mk.injEq .. ▸ Except.ok.inj hsend
      subst hh
      subst hc
      exact ⟨_, rfl, rfl, by simp [decrypt_with_gcm, encrypt_with_gcm]⟩
    · simp only [hconnv] at hsend
      by_cases hneed : conn.need_ratchet
      · simp only [hneed, if_pos] at hsend
        unfold ratchet_dh_sending_keys at hsend
        simp only [hconnv, getEntry_setEntry_self] at hsend
        rcases htheir : conn.their_dh_public_key with _ | t
        · simp only [htheir] at hsend
          exact absurd hsend (by simp)
        · simp only [htheir, getEntry_setEntry_self, hkeys] at hsend
          obtain ⟨hh, hc⟩ := Prod.mk.injEq .. ▸ Except.ok.inj hsend
          subst hh
          subst hc
          exact ⟨_, rfl, rfl, by simp [decrypt_with_gcm, encrypt_with_gcm]⟩
      · simp only [if_neg hneed, hconnv] at hsend
        rcases hsck : conn.sending_chain_key with _ | sck
        · simp only [hsck] at hsend
          exact absurd hsend (by simp)
        · simp only [hsck, hkeys] at hsend
          obtain ⟨hh, hc⟩ := Prod.mk.injEq .. ▸ Except.ok.inj hsend
          subst hh
          subst hc
          exact ⟨_, rfl, rfl, by simp [decrypt_with_gcm, encrypt_with_gcm]⟩

theorem receive_ok_facts (c : Client) (name : String) (m : Header × Data) (pt : Data)
    (c' : Client) (h : receive_message c name m = (Except.ok pt, c')) :
    c'.certs = c.certs ∧ c'.my_keys = c.my_keys ∧
    (∃ cert, getEntry c.certs name = some cert) ∧
    ∃ conn', getEntry c'.conns name = some conn' ∧ conn'.need_ratchet = true ∧
      conn'.their_dh_public_key = some m.1.dh_public_key := by
  unfold receive_message at h
  rcases hcertv : getEntry c.certs name with _ | cert
  · rw [hcertv] at h
    exact absurd (congrArg Prod.fst h) (by simp)
  · simp only [hcertv] at h
    rcases hconnv : getEntry c.conns name with _ | conn
    · simp only [hconnv] at h
      unfold init_receiving_session at h
      rcases hk : c.my_keys with _ | keys
      · simp only [hcertv, hk] at h
        exact absurd (congrArg Prod.fst h) (by simp)
      · simp only [hcertv, hk, getEntry_setEntry_self] at h
        rw [if_neg (by simp)] at h
        simp only [getEntry_setEntry_self] at h
        by_cases hlt : m.1.message_n < (-1 : Int)
        · rw [if_pos hlt] at h
          exact absurd (congrArg Prod.fst h) (by simp)
        · rw [if_neg hlt] at h
          by_cases heq : m.1.message_n = (-1 : Int)
          · rw [if_pos heq] at h
            rcases hdec : decrypt_with_gcm
                (hmac_to_aes_key
                  (ratchet_receiving_chain
                    (hkdf (compute_dh keys.1 cert.public_key) (gen_random_salt c.ctr)
                      "receiving_chain_init").2).1 "decrypt")
                m.2 m.1.receiver_iv (some (headerStr m.1)) with _ | pt'
            · simp only [hdec] at h
              exact absurd (congrArg Prod.fst h) (by simp)
            · simp only [hdec] at h
              obtain ⟨h1, h2⟩ := Prod.mk.injEq .. ▸ h
              subst h2
              exact ⟨rfl, rfl, ⟨cert, rfl⟩, _, getEntry_setEntry_self _ _ _,
                rfl, rfl⟩
          · rw [if_neg heq] at h
            exact absurd (congrArg Prod.fst h) (by simp)
    · simp only [hconnv] at h
      by_cases hdh : some m.1.dh_public_key ≠ conn.their_dh_public_key
      · rw [if_pos hdh] at h
        unfold ratchet_dh_receiving_keys at h
        simp only [hconnv, getEntry_setEntry_self] at h
        by_cases hlt : m.1.message_n < conn.their_message_n
        · rw [if_pos hlt] at h
          exact absurd (congrArg Prod.fst h) (by simp)
        · rw [if_neg hlt] at h
          by_cases heq : m.1.message_n = conn.their_message_n
          · rw [if_pos heq] at h
            rcases hdec : decrypt_with_gcm
                (hmac_to_aes_key
                  (ratchet_receiving_chain
                    (hkdf (compute_dh conn.my_dh_private_key m.1.dh_public_key)
                      (gen_random_salt c.ctr) "dh_ratchet_receiving").2).1 "decrypt")
                m.2 m.1.receiver_iv (some (headerStr m.1)) with _ | pt'
            · simp only [hdec] at h
              exact absurd (congrArg Prod.fst h) (by simp)
            · simp only [hdec] at h
              obtain ⟨h1, h2⟩ := Prod.mk.injEq .. ▸ h
              subst h2
              exact ⟨rfl, rfl, ⟨cert, rfl⟩, _, getEntry_setEntry_self _ _ _,
                rfl, rfl⟩
          · rw [if_neg heq] at h
            exact absurd (congrArg Prod.fst h) (by simp)
      · rw [if_neg hdh] at h
        rw [not_ne_iff] at hdh
        simp only [hconnv] at h
        by_cases hlt : m.1.message_n < conn.their_message_n
        · rw [if_pos hlt] at h
          exact absurd (congrArg Prod.fst h) (by simp)
        · rw [if_neg hlt] at h
          by_cases heq : m.1.message_n = conn.their_message_n
          · rw [if_pos heq] at h
            rcases hrck : conn.receiving_chain_key with _ | rck
            · simp only [hrck] at h
              exact absurd (congrArg Prod.fst h) (by simp)
            · simp only [hrck] at h
              rcases hdec : decrypt_with_gcm
                  (hmac_to_aes_key (ratchet_receiving_chain rck).1 "decrypt")
                  m.2 m.1.receiver_iv (some (headerStr m.1)) with _ | pt'
              · simp only [hdec] at h
                exact absurd (congrArg Prod.fst h) (by simp)
              · simp only [hdec] at h
                obtain ⟨h1, h2⟩ := Prod.mk.injEq .. ▸ h
                subst h2
                exact ⟨rfl, rfl, ⟨cert, rfl⟩, _, getEntry_setEntry_self _ _ _,
                  rfl, hdh.symm⟩
          · rw [if_neg heq] at h
            exact absurd (congrArg Prod.fst h) (by simp)

theorem send_after_ratchet_header (c : Client) (name p : String) (conn : Conn)
    (t : Data) (hdr : Header) (ct : Data)
    (hconn : getEntry c.conns name = some conn)
    (hneed : conn.need_ratchet = true)
    (htheir : conn.their_dh_public_key = some t)
    (hsend : (send_message c name p).1 = Except.ok (hdr, ct)) :
    hdr.dh_public_key = Data.dpub c.ctr ∧ hdr.message_n = 0 ∧
    hdr.prev_chain_length = conn.message_n ∧
    ∃ conn'', getEntry (send_message c name p).2.conns name = some conn'' ∧
      conn''.prev_chain_length = conn.message_n ∧ conn''.message_n = 1 := by
  unfold send_message at hsend
  rcases hcertv : getEntry c.certs name with _ | cert
  · rw [hcertv] at hsend
    exact absurd hsend (by simp)
  · simp only [hcertv, hconn, hneed, if_pos] at hsend
    unfold ratchet_dh_sending_keys at hsend
    simp only [hconn, htheir, getEntry_setEntry_self] at hsend
    rcases hk : c.my_keys with _ | keys
    · simp only [hk] at hsend
      exact absurd hsend (by simp)
    · simp only [hk] at hsend
      obtain ⟨hh, hc⟩ := Prod.mk.injEq .. ▸ Except.ok.inj hsend
      subst hh
      subst hc
      refine ⟨rfl, rfl, rfl, ?_⟩
      simp only [send_message, ratchet_dh_sending_keys, hcertv, hconn, hneed, htheir,
        if_pos, reduceIte, hk, getEntry_setEntry_self]
      exact ⟨_, rfl, rfl, rfl⟩

/-- C6: after a successful receive the session has need_ratchet set, and
the next successful send on that session performs a DH ratchet before
encrypting: its header carries the freshly generated DH public key
(hence, whenever fresh generation yields a new key, one different from
the session key used by the previous send), records prev_chain_length as
the old message_n, and starts the new chain at message index 0. -/
theorem ratchet_after_receive (c : Client) (name : String) (m : Header × Data)
    (pt : Data) (c' : Client) (conn' : Conn) (p2 : String) (hdr : Header) (ct : Data)
    (hrecv : receive_message c name m = (Except.ok pt, c'))
    (hconn' : getEntry c'.conns name = some conn')
    (hsend : (send_message c' name p2).1 = Except.ok (hdr, ct)) :
    conn'.need_ratchet = true ∧
    hdr.dh_public_key = Data.dpub c'.ctr ∧
    (Data.dpub c'.ctr ≠ conn'.my_dh_public_key →
       hdr.dh_public_key ≠ conn'.my_dh_public_key) ∧
    hdr.prev_chain_length = conn'.message_n ∧
    hdr.message_n = 0 ∧
    ∃ conn'', getEntry (send_message c' name p2).2.conns name = some conn'' ∧
      conn''.prev_chain_length = conn'.message_n ∧ conn''.message_n = 1 := by
  obtain ⟨_, _, _, conn0, hconn0, hneed0, htheir0⟩ := receive_ok_facts c name m pt c' hrecv
  obtain rfl : conn0 = conn' := by rw [hconn0] at hconn'; exact Option.some.inj hconn'
  obtain ⟨h1, h2, h3, h4⟩ :=
    send_after_ratchet_header c' name p2 conn0 m.1.dh_public_key hdr ct hconn0 hneed0
      htheir0 hsend
  exact ⟨hneed0, h1, fun hne => h1 ▸ hne, h3, h2, h4⟩

/-- C1: the round-trip property fails in the code. In the honest
scenario one, where alice and bob have exchanged verified certificates
and alice sends the plaintext hello, the receiver on a fresh lazily
initialized session rejects the message with the tampering error instead
of returning the plaintext: the initializers leave their_message_n at the
sentinel -1 while honest headers start at index 0, and the two sides
derive their chain keys from independent random salts. -/
theorem roundtrip_first_message_rejected :
    (receive_certificate aliceGen.2 bobGen.1 sigOnBobCert).1 = Except.ok () ∧
    (receive_certificate bobGen.2 aliceGen.1 sigOnAliceCert).1 = Except.ok () ∧
    (send_message alice2 "bob" "hello").1 = Except.ok msg1 ∧
    msg1.1.message_n = 0 ∧
    (receive_message bob2 "alice" msg1).1 = Except.error Err.tampering :=
  ⟨rfl, rfl, rfl, rfl, rfl⟩

/-- C2 counterexample: a receive_message call that fails with the
tampering error nevertheless changes the session state: the stored peer
ratchet key their_dh_public_key goes from none to the crafted header key,
because the DH ratchet is performed before the replay and order
checks. -/
theorem receive_failure_mutates_session_cex :
    (receive_message s2c2 "dave" (hdrY, Data.str "junk")).1 =
      Except.error Err.tampering ∧
    (getEntry s2c2.conns "dave").map Conn.their_dh_public_key = some none ∧
    (getEntry (receive_message s2c2 "dave" (hdrY, Data.str "junk")).2.conns
      "dave").map Conn.their_dh_public_key = some (some (Data.dpub 888)) ∧
    (getEntry s2c2.conns "dave").map Conn.root_key ≠
      (getEntry (receive_message s2c2 "dave" (hdrY, Data.str "junk")).2.conns
        "dave").map Conn.root_key :=
  ⟨rfl, rfl, rfl, by decide⟩

/-- Witness for the amended C2 theorem at the concrete failing receive of
scenario two. -/
theorem receive_failure_preserves_commit_fields_witness :
    getEntry s2c2.conns "dave" = some s2conn2 ∧
    (receive_message s2c2 "dave" (hdrY, Data.str "junk")).1 =
      Except.error Err.tampering ∧
    getEntry (receive_message s2c2 "dave" (hdrY, Data.str "junk")).2.conns "dave" =
      some s2connY ∧
    (s2connY.their_message_n = s2conn2.their_message_n ∧
     s2connY.need_ratchet = s2conn2.need_ratchet ∧
     s2connY.message_n = s2conn2.message_n ∧
     s2connY.sending_chain_key = s2conn2.sending_chain_key ∧
     s2connY.prev_chain_length = s2conn2.prev_chain_length ∧
     s2connY.my_dh_private_key = s2conn2.my_dh_private_key ∧
     s2connY.my_dh_public_key = s2conn2.my_dh_public_key) :=
  ⟨rfl, rfl, rfl,
    receive_failure_preserves_commit_fields s2c2 "dave" (hdrY, Data.str "junk")
      Err.tampering s2conn2 s2connY rfl rfl rfl⟩

/-- C3 counterexample: message_n decreases across a single operation. In
scenario two the session has message_n = 2, a crafted receive succeeds
and sets need_ratchet, and the next send DH-ratchets, leaving
message_n = 1, strictly below its previous value. -/
theorem message_n_decreases_cex :
    s2recv.1 = Except.ok (Data.str "hi") ∧
    (getEntry s2recv.2.conns "dave").map Conn.message_n = some 2 ∧
    s2send3.1 = Except.ok msg3 ∧
    (getEntry s2send3.2.conns "dave").map Conn.message_n = some 1 ∧
    ¬ ((2 : Int) ≤ 1) :=
  ⟨rfl, rfl, rfl, rfl, by decide⟩

/-- Witness for the amended C3 theorem at the concrete session of
scenario two. -/
theorem counters_monotone_amended_witness :
    getEntry s2c2.conns "dave" = some s2conn2 ∧
    getEntry (receive_message s2c2 "dave" (hdrX, ctX)).2.conns "dave" =
      some s2conn3 ∧
    (s2conn2.their_message_n ≤ s2conn3.their_message_n ∧
     s2conn3.message_n = s2conn2.message_n) :=
  ⟨rfl, rfl,
    (counters_monotone_amended s2c2 "dave" (hdrX, ctX) "c" s2conn2 rfl).1 s2conn3 rfl⟩

/-- Witness for the C4 theorem at a concrete crafted header whose index
-2 lies strictly below the expected sentinel counter -1. -/
theorem receive_replay_tamper_spec_witness :
    getEntry s2c2.certs "dave" = some daveCert ∧
    getEntry s2c2.conns "dave" = some s2conn2 ∧
    (((receive_message s2c2 "dave" (hdrZ, Data.str "junk")).1 =
        Except.error Err.replay ↔
        hdrZ.message_n < s2conn2.their_message_n) ∧
     (¬ hdrZ.message_n < s2conn2.their_message_n →
        hdrZ.message_n ≠ s2conn2.their_message_n →
        (receive_message s2c2 "dave" (hdrZ, Data.str "junk")).1 =
          Except.error Err.tampering)) :=
  ⟨rfl, rfl,
    receive_replay_tamper_spec s2c2 "dave" hdrZ (Data.str "junk") daveCert s2conn2
      rfl rfl⟩

/-- Witness for the C6 theorem at the crafted successful receive and the
following send of scenario two. -/
theorem ratchet_after_receive_witness :
    receive_message s2c2 "dave" (hdrX, ctX) = (Except.ok (Data.str "hi"), s2recv.2) ∧
    getEntry s2recv.2.conns "dave" = some s2conn3 ∧
    (send_message s2recv.2 "dave" "c").1 = Except.ok (msg3.1, msg3.2) ∧
    (s2conn3.need_ratchet = true ∧
     msg3.1.dh_public_key = Data.dpub s2recv.2.ctr ∧
     (Data.dpub s2recv.2.ctr ≠ s2conn3.my_dh_public_key →
        msg3.1.dh_public_key ≠ s2conn3.my_dh_public_key) ∧
     msg3.1.prev_chain_length = s2conn3.message_n ∧
     msg3.1.message_n = 0 ∧
     ∃ conn'', getEntry (send_message s2recv.2 "dave" "c").2.conns "dave" =
         some conn'' ∧
       conn''.prev_chain_length = s2conn3.message_n ∧ conn''.message_n = 1) :=
  ⟨rfl, rfl, rfl,
    ratchet_after_receive s2c2 "dave" (hdrX, ctX) (Data.str "hi") s2recv.2 s2conn3
      "c" msg3.1 msg3.2 rfl rfl rfl⟩

/-- Witness for the C7 theorem at the first message of scenario one. -/
theorem escrow_recovers_message_key_witness :
    alice2.my_keys = some (Data.dpriv 0, Data.dpub 0) ∧
    (send_message alice2 "bob" "hello").1 = Except.ok (msg1.1, msg1.2) ∧
    (∃ k, msg1.2 = encrypt_with_gcm k (Data.str "hello") msg1.1.receiver_iv
        (some (headerStr msg1.1)) ∧
      msg1.1.c_gov = encrypt_with_gcm
        (hmac_to_aes_key (compute_dh (Data.dpriv 0) alice2.gov_public_key)
          gov_encryption_data_str)
        k msg1.1.iv_gov none ∧
      decrypt_with_gcm
        (hmac_to_aes_key (compute_dh (Data.dpriv 0) alice2.gov_public_key)
          gov_encryption_data_str)
        msg1.1.c_gov msg1.1.iv_gov none = some k) :=
  ⟨rfl, rfl,
    escrow_recovers_message_key alice2 "bob" "hello" msg1.1 msg1.2 (Data.dpriv 0)
      (Data.dpub 0) rfl rfl⟩

/-- Witness for the C8 theorem at the post-receive session of scenario
two, whose need_ratchet flag is set and whose peer ratchet key is on
file. -/
theorem dh_ratchet_sending_spec_witness :
    getEntry s2recv.2.conns "dave" = some s2conn3 ∧
    s2conn3.their_dh_public_key = some (Data.dpub 999) ∧
    ((ratchet_dh_sending_keys s2recv.2 "dave").1 = Except.ok () ∧
     ∃ conn', getEntry (ratchet_dh_sending_keys s2recv.2 "dave").2.conns "dave" =
         some conn' ∧
       conn'.prev_chain_length = s2conn3.message_n ∧
       conn'.message_n = 0 ∧
       conn'.my_dh_private_key = (generate_eg s2recv.2.ctr).1 ∧
       conn'.my_dh_public_key = (generate_eg s2recv.2.ctr).2 ∧
       conn'.root_key =
         (hkdf (compute_dh (generate_eg s2recv.2.ctr).1 (Data.dpub 999))
           (gen_random_salt (s2recv.2.ctr + 1)) "dh_ratchet_sending").1 ∧
       conn'.sending_chain_key =
         some (hkdf (compute_dh (generate_eg s2recv.2.ctr).1 (Data.dpub 999))
           (gen_random_salt (s2recv.2.ctr + 1)) "dh_ratchet_sending").2 ∧
       conn'.need_ratchet = false ∧
       conn'.their_dh_public_key = s2conn3.their_dh_public_key ∧
       conn'.receiving_chain_key = s2conn3.receiving_chain_key ∧
       conn'.their_message_n = s2conn3.their_message_n) :=
  ⟨rfl, rfl,
    dh_ratchet_sending_spec s2recv.2 "dave" s2conn3 (Data.dpub 999) rfl rfl⟩

/-- C9 counterexample: the receiving-side initializer does not generate a
fresh local ratchet key pair distinct from the identity key pair; in
scenario one, bob's lazily created session for alice carries exactly
bob's identity key pair as its session DH key pair. -/
theorem init_receiving_reuses_identity_cex :
    bob2.my_keys = some (Data.dpriv 50, Data.dpub 50) ∧
    (getEntry (receive_message bob2 "alice" msg1).2.conns "alice").map
      Conn.my_dh_private_key = some (Data.dpriv 50) ∧
    (getEntry (receive_message bob2 "alice" msg1).2.conns "alice").map
      Conn.my_dh_public_key = some (Data.dpub 50) :=
  ⟨rfl, rfl, rfl⟩

/-- Witness for the amended C9 theorem at bob's state of scenario one. -/
theorem init_receiving_spec_witness :
    getEntry bob2.certs "alice" = some aliceGen.1 ∧
    bob2.my_keys = some (Data.dpriv 50, Data.dpub 50) ∧
    ((init_receiving_session bob2 "alice" msg1.1).1 = Except.ok () ∧
     ∃ conn, getEntry (init_receiving_session bob2 "alice" msg1.1).2.conns
         "alice" = some conn ∧
       conn.my_dh_private_key = Data.dpriv 50 ∧
       conn.my_dh_public_key = Data.dpub 50 ∧
       conn.their_dh_public_key = some msg1.1.dh_public_key ∧
       conn.root_key = compute_dh (Data.dpriv 50) aliceGen.1.public_key ∧
       conn.sending_chain_key = none ∧
       conn.receiving_chain_key =
         some (hkdf (compute_dh (Data.dpriv 50) aliceGen.1.public_key)
           (gen_random_salt bob2.ctr) "receiving_chain_init").2 ∧
       conn.message_n = 0 ∧
       conn.their_message_n = -1 ∧
       conn.need_ratchet = false) :=
  ⟨rfl, rfl,
    init_receiving_spec bob2 "alice" msg1.1 aliceGen.1 (Data.dpriv 50)
      (Data.dpub 50) rfl rfl⟩

end Messenger
